import Mathlib

/-!
Shallow embedding of the volunteer-portal services (profile lifecycle
engine in `profile-service.js`, team membership ledger in
`teams-service.js`).

Modelling conventions:
* A document store is an association list keyed by document id; Firestore
  `setDoc` creates-or-overwrites, `updateDoc` fails with a not-found error
  when the document is absent and never creates it.
* JS objects stored in a section are lists of key/value pairs; `[]` is the
  empty object.  A JS object is truthy even when empty, so defaulting an
  absent section is `Option.getD` on an optional section.
* Absent string fields are modelled as `""`: JS truthiness (`&&` guards on
  `adminUse.notes` etc.) does not distinguish `undefined` from `""`.
* `serverTimestamp()` is an explicit `now : Nat` parameter; timestamps are
  `Option Nat` (`none` = JS `null`).
* the en-GB locale date rendering with 2-digit day, short month and
  numeric year is `formatDateGB` applied to an explicit current date.
* The ambient `auth.currentUser` is an explicit `Option String` argument
  (the signed-in uid, or `none`).
-/

set_option autoImplicit false

namespace Portal

/-- A JS field value as far as the embedded code inspects it. -/
inductive JVal where
  | s (v : String)
  | b (v : Bool)
  | null
deriving DecidableEq, Repr

/-- A JS object used as a section payload: key/value pairs, `[]` is the
empty object. -/
abbrev SectionData := List (String × JVal)

/-- `submission` block of a profile document. -/
structure Submission where
  agreedToTerms : Bool
  submittedAt : Option Nat
deriving DecidableEq, Repr

/-- `adminUse` block of a profile document. -/
structure AdminUse where
  status : String
  approvedBy : String
  notes : String
  reviewedAt : Option Nat
deriving DecidableEq, Repr

/-- A stored profile document.  `adminUse` is optional because the code
guards with `!profile.adminUse`. -/
structure Profile where
  personalDetails : SectionData
  driving : SectionData
  medicalQualifications : SectionData
  submission : Submission
  adminUse : Option AdminUse
deriving DecidableEq, Repr

/-- The `adminUse` part of a caller-supplied profile payload; only `notes`
is ever read (`updatedProfile.adminUse.notes`). -/
structure AdminUseInput where
  notes : String
deriving DecidableEq, Repr

/-- Caller-supplied profile payload (`profileData` / `updatedProfile`):
each section may be absent (`undefined`). -/
structure ProfileInput where
  personalDetails : Option SectionData
  driving : Option SectionData
  medicalQualifications : Option SectionData
  adminUse : Option AdminUseInput
deriving DecidableEq, Repr

/-- Errors surfaced by the services, named after the error taxonomy of
the spec.  `profileMissing` covers the document-not-found outcome of the
profile store
(both the explicit profile-does-not-exist throw in `submitProfile` and a failed
`updateDoc` on an absent profile document); `notFound` is the same
outcome on the users store; `storeError` is an underlying store failure
on the named document. -/
inductive Err where
  | notAuthenticated
  | termsNotAccepted
  | profileMissing
  | validationError (msg : String)
  | notFound (docId : String)
  | storeError (docId : String)
deriving DecidableEq, Repr

/-! ### Association-list document store -/

/-- Look a document up by id. -/
def alGet {α : Type} : List (String × α) → String → Option α
  | [], _ => none
  | (k', v) :: rest, k => if k' = k then some v else alGet rest k

/-- Create or overwrite a document (Firestore `setDoc`). -/
def alSet {α : Type} : List (String × α) → String → α → List (String × α)
  | [], k, v => [(k, v)]
  | (k', v') :: rest, k, v =>
      if k' = k then (k, v) :: rest else (k', v') :: alSet rest k v

/-- Delete a document (Firestore `deleteDoc`; succeeds even when absent). -/
def alDelete {α : Type} (st : List (String × α)) (k : String) :
    List (String × α) :=
  st.filter (fun kv => kv.1 ≠ k)

/-- The profile store: one profile document per uid. -/
abbrev PStore := List (String × Profile)

/-! ### Profile lifecycle engine (`profile-service.js`) -/

/-- Default `personalDetails` object used by `createProfile`. -/
def defaultPersonalDetails : SectionData :=
  [("DOB", .null), ("emergencyContact", .s "")]

/-- Default `driving` object used by `createProfile`. -/
def defaultDriving : SectionData :=
  [("c1Classification", .b false), ("dlNumber", .s ""), ("niNumber", .s ""),
   ("points", .s "")]

/-- Default `medicalQualifications` object used by `createProfile`. -/
def defaultMedicalQualifications : SectionData :=
  [("certExpiry", .null), ("details", .s ""), ("gmc", .s ""),
   ("hcpc", .s ""), ("nbc", .s ""), ("qualification", .s "")]

/-- `createProfile(profileData)`: builds the full document (defaults for
missing sections, status `"draft"`) and `setDoc`s it. -/
def createProfile (authUser : Option String) (d : ProfileInput)
    (st : PStore) : Except Err Profile × PStore :=
  match authUser with
  | none => (.error .notAuthenticated, st)
  | some uid =>
      let newProfile : Profile :=
        { personalDetails := d.personalDetails.getD defaultPersonalDetails
          driving := d.driving.getD defaultDriving
          medicalQualifications :=
            d.medicalQualifications.getD defaultMedicalQualifications
          submission := { agreedToTerms := false, submittedAt := none }
          adminUse := some { status := "draft", approvedBy := "",
                             notes := "", reviewedAt := none } }
      (.ok newProfile, alSet st uid newProfile)

/-- The guard shared by the three section updates: adminUse absent, or
its status equal to "pending" or to the empty string. -/
def forcesDraft (p : Profile) : Bool :=
  match p.adminUse with
  | none => true
  | some a => a.status = "pending" || a.status = ""

/-- `updateDoc` on the dotted path adminUse.status: updates the field,
creating the nested map when `adminUse` is absent. -/
def setStatus (a : Option AdminUse) (s : String) : Option AdminUse :=
  match a with
  | some a => some { a with status := s }
  | none => some { status := s, approvedBy := "", notes := "",
                   reviewedAt := none }

/-- `updatePersonalDetails(personalDetails)`. -/
def updatePersonalDetails (authUser : Option String) (v : SectionData)
    (st : PStore) : Except Err Unit × PStore :=
  match authUser with
  | none => (.error .notAuthenticated, st)
  | some uid =>
      match alGet st uid with
      | some p =>
          if forcesDraft p then
            (.ok (), alSet st uid
              { p with personalDetails := v,
                       adminUse := setStatus p.adminUse "draft" })
          else
            (.ok (), alSet st uid { p with personalDetails := v })
      | none =>
          let r := createProfile (some uid)
            { personalDetails := some v, driving := none,
              medicalQualifications := none, adminUse := none } st
          (r.1.map (fun _ => ()), r.2)

/-- `updateDriving(driving)`. -/
def updateDriving (authUser : Option String) (v : SectionData)
    (st : PStore) : Except Err Unit × PStore :=
  match authUser with
  | none => (.error .notAuthenticated, st)
  | some uid =>
      match alGet st uid with
      | some p =>
          if forcesDraft p then
            (.ok (), alSet st uid
              { p with driving := v,
                       adminUse := setStatus p.adminUse "draft" })
          else
            (.ok (), alSet st uid { p with driving := v })
      | none =>
          let r := createProfile (some uid)
            { personalDetails := none, driving := some v,
              medicalQualifications := none, adminUse := none } st
          (r.1.map (fun _ => ()), r.2)

/-- `updateMedicalQualifications(medicalQualifications)`. -/
def updateMedicalQualifications (authUser : Option String) (v : SectionData)
    (st : PStore) : Except Err Unit × PStore :=
  match authUser with
  | none => (.error .notAuthenticated, st)
  | some uid =>
      match alGet st uid with
      | some p =>
          if forcesDraft p then
            (.ok (), alSet st uid
              { p with medicalQualifications := v,
                       adminUse := setStatus p.adminUse "draft" })
          else
            (.ok (), alSet st uid { p with medicalQualifications := v })
      | none =>
          let r := createProfile (some uid)
            { personalDetails := none, driving := none,
              medicalQualifications := some v, adminUse := none } st
          (r.1.map (fun _ => ()), r.2)

/-- `submitProfile(agreedToTerms)`: auth check, then terms check, then
profile-existence check, then one `updateDoc`. -/
def submitProfile (authUser : Option String) (agreedToTerms : Bool)
    (now : Nat) (st : PStore) : Except Err Unit × PStore :=
  match authUser with
  | none => (.error .notAuthenticated, st)
  | some uid =>
      if !agreedToTerms then (.error .termsNotAccepted, st)
      else
        match alGet st uid with
        | none => (.error .profileMissing, st)
        | some p =>
            (.ok (), alSet st uid
              { p with
                submission := { agreedToTerms := agreedToTerms,
                                submittedAt := some now }
                adminUse := setStatus p.adminUse "pending" })

/-- `reviewProfile(userId, status, notes)`: one `updateDoc` setting all
four `adminUse` fields (fails when the target profile is absent). -/
def reviewProfile (authUser : Option String) (targetUserId status notes :
    String) (now : Nat) (st : PStore) : Except Err Unit × PStore :=
  match authUser with
  | none => (.error .notAuthenticated, st)
  | some adminUid =>
      match alGet st targetUserId with
      | none => (.error .profileMissing, st)
      | some p =>
          (.ok (), alSet st targetUserId
            { p with adminUse := some { status := status,
                                        approvedBy := adminUid,
                                        notes := notes,
                                        reviewedAt := some now } })

/-- A calendar date as rendered in the local calendar of the caller. -/
structure GDate where
  day : Nat
  month : Nat
  year : Nat
deriving DecidableEq, Repr

/-- Abbreviated English month name (short month rendering). -/
def monthAbbrev : Nat → String
  | 1 => "Jan" | 2 => "Feb" | 3 => "Mar" | 4 => "Apr"
  | 5 => "May" | 6 => "Jun" | 7 => "Jul" | 8 => "Aug"
  | 9 => "Sep" | 10 => "Oct" | 11 => "Nov" | _ => "Dec"

/-- Two-digit day rendering. -/
def pad2 (n : Nat) : String :=
  if n < 10 then "0" ++ toString n else toString n

/-- The en-GB locale date rendering used for resubmission notes,
for example "05 Mar 2025". -/
def formatDateGB (d : GDate) : String :=
  pad2 d.day ++ " " ++ monthAbbrev d.month ++ " " ++ toString d.year

/-- The generated resubmission note line. -/
def generatedNote (today : GDate) : String :=
  "Profile updated by user on " ++ formatDateGB today ++ ". Requires review."

/-- The notes value `updateAndResubmitProfile` computes for an existing
profile document: explicit caller notes are consulted only inside the
prior-notes branch. -/
def resubmitNotes (p : Profile) (upd : ProfileInput) (today : GDate) :
    String :=
  match p.adminUse with
  | some a =>
      if a.notes ≠ "" then
        match upd.adminUse with
        | some ua =>
            if ua.notes ≠ "" then ua.notes
            else a.notes ++ "\n\n" ++ generatedNote today
        | none => a.notes ++ "\n\n" ++ generatedNote today
      else generatedNote today
  | none => generatedNote today

/-- `updateAndResubmitProfile(updatedProfile)`: computes the notes to
store, then one `updateDoc` overwriting the three sections (absent ones
become `{}`), the submitted-at timestamp, the status (forced to "pending") and the
notes. -/
def updateAndResubmitProfile (authUser : Option String)
    (updated : ProfileInput) (now : Nat) (today : GDate)
    (st : PStore) : Except Err Unit × PStore :=
  match authUser with
  | none => (.error .notAuthenticated, st)
  | some uid =>
      let existing := alGet st uid
      let adminNotes : String :=
        match existing with
        | some ex => resubmitNotes ex updated today
        | none => ""
      match existing with
      | none => (.error .profileMissing, st)
      | some p =>
          (.ok (), alSet st uid
            { p with
              personalDetails := updated.personalDetails.getD []
              driving := updated.driving.getD []
              medicalQualifications := updated.medicalQualifications.getD []
              submission := { p.submission with submittedAt := some now }
              adminUse :=
                match p.adminUse with
                | some a => some { a with status := "pending",
                                          notes := adminNotes }
                | none => some { status := "pending", approvedBy := "",
                                 notes := adminNotes,
                                 reviewedAt := none } })

/-! ### Team membership ledger (`teams-service.js`) -/

/-- A stored team document. -/
structure Team where
  name : String
  description : String
  createdAt : Option Nat
  updatedAt : Option Nat
deriving DecidableEq, Repr

/-- A stored user record, as far as the ledger reads it: the optional
`teams` membership array (`none` = field absent). -/
structure UserRec where
  teams : Option (List String)
deriving DecidableEq, Repr

/-- The two collections the ledger touches. -/
structure TeamsState where
  teams : List (String × Team)
  users : List (String × UserRec)
deriving DecidableEq, Repr

/-- Firestore `arrayUnion(x)` on an array field: appends `x` unless
already present (on an absent field the caller passes `[]`). -/
def arrayUnion (xs : List String) (x : String) : List String :=
  if x ∈ xs then xs else xs ++ [x]

/-- Firestore `arrayRemove(x)`: removes every occurrence of `x`. -/
def arrayRemove (xs : List String) (x : String) : List String :=
  xs.filter (fun y => y ≠ x)

/-- `addUserToTeam(userId, teamId)`: one `updateDoc` with
`arrayUnion(teamId)` (fails when the user record is absent; creates the
`teams` field when it is missing). -/
def addUserToTeam (userId teamId : String) (s : TeamsState) :
    Except Err Unit × TeamsState :=
  match alGet s.users userId with
  | none => (.error (.notFound userId), s)
  | some u =>
      (.ok (), { s with
        users := alSet s.users userId
          ({ teams := some (arrayUnion (u.teams.getD []) teamId) }) })

/-- `removeUserFromTeam(userId, teamId)`: one `updateDoc` with
`arrayRemove(teamId)`. -/
def removeUserFromTeam (userId teamId : String) (s : TeamsState) :
    Except Err Unit × TeamsState :=
  match alGet s.users userId with
  | none => (.error (.notFound userId), s)
  | some u =>
      (.ok (), { s with
        users := alSet s.users userId
          ({ teams := some (arrayRemove (u.teams.getD []) teamId) }) })

/-- The ids matched by the array-contains query on the teams field of
the users collection, in store order. -/
def memberIds (users : List (String × UserRec)) (teamId : String) :
    List String :=
  (users.filter (fun kv => teamId ∈ kv.2.teams.getD [])).map (fun kv => kv.1)

/-- Effect of the `deleteTeam` fan-out on one user record: users matched by
the query whose `updateDoc` does not fail get `arrayRemove(teamId)`;
everyone else is untouched.  `failsOn` says which per-user `updateDoc`
calls the store rejects. -/
def cleanUser (teamId : String) (failsOn : String → Bool) (uid : String)
    (u : UserRec) : UserRec :=
  if teamId ∈ u.teams.getD [] ∧ failsOn uid = false then
    { teams := some (arrayRemove (u.teams.getD []) teamId) }
  else u

/-- The users collection after the `deleteTeam` fan-out. -/
def removeTeamFromUsers (users : List (String × UserRec)) (teamId : String)
    (failsOn : String → Bool) : List (String × UserRec) :=
  users.map (fun kv => (kv.1, cleanUser teamId failsOn kv.1 kv.2))

/-- `deleteTeam(teamId)`: `deleteDoc` the team, query the members, launch
one `updateDoc` per member and `Promise.all` the results.  Every launched
update runs to completion independently, but `Promise.all` rejects with
the first member failure, which the `catch` rethrows to the caller. -/
def deleteTeam (teamId : String) (failsOn : String → Bool)
    (s : TeamsState) : Except Err Unit × TeamsState :=
  let s' : TeamsState :=
    { teams := alDelete s.teams teamId
      users := removeTeamFromUsers s.users teamId failsOn }
  match (memberIds s.users teamId).filter (fun uid => failsOn uid) with
  | [] => (.ok (), s')
  | u :: _ => (.error (.storeError u), s')

/-- `getTeamById(teamId)`: the document with its id attached, or `null`. -/
def getTeamById (teamId : String) (s : TeamsState) :
    Option (String × Team) :=
  (alGet s.teams teamId).map (fun t => (teamId, t))

/-- Insert into a list sorted by team name (ascending). -/
def insertByName (x : String × Team) :
    List (String × Team) → List (String × Team)
  | [] => [x]
  | y :: ys =>
      if x.2.name ≤ y.2.name then x :: y :: ys else y :: insertByName x ys

/-- The sort by team name used by `getUserTeams`, modelled as a stable
insertion sort by name under the ordering on strings. -/
def sortByName : List (String × Team) → List (String × Team)
  | [] => []
  | x :: xs => insertByName x (sortByName xs)

/-- `getUserTeams(userId)`: missing user record gives `[]`; a user record
without a `teams` field gets it initialised to `[]` as a side effect;
otherwise each id is resolved (missing teams silently skipped) and the
result is sorted by name. -/
def getUserTeams (userId : String) (s : TeamsState) :
    List (String × Team) × TeamsState :=
  match alGet s.users userId with
  | none => ([], s)
  | some u =>
      match u.teams with
      | none =>
          ([], { s with
            users := alSet s.users userId ({ teams := some [] }) })
      | some teamIds =>
          if teamIds.isEmpty then ([], s)
          else
            (sortByName (teamIds.filterMap (fun tid => getTeamById tid s)),
             s)

/-! ### Observers and concrete fixtures -/

/-- Observer: the stored admin notes of a profile document. -/
def notesAfter (st : PStore) (uid : String) : Option String :=
  ((alGet st uid).bind Profile.adminUse).map AdminUse.notes

/-- Observer: the stored review status of a profile document. -/
def statusAfter (st : PStore) (uid : String) : Option String :=
  ((alGet st uid).bind Profile.adminUse).map AdminUse.status

/-- An empty caller payload (every section absent). -/
def inputEmpty : ProfileInput :=
  { personalDetails := none, driving := none,
    medicalQualifications := none, adminUse := none }

/-- A caller payload carrying explicit admin notes "X" and no sections. -/
def resubmitInputX : ProfileInput :=
  { personalDetails := none, driving := none,
    medicalQualifications := none, adminUse := some { notes := "X" } }

/-- A small personal-details payload. -/
def samplePD : SectionData := [("emergencyContact", .s "Alice 07000 000000")]

/-- A stored profile whose review status is "pending". -/
def profilePending : Profile :=
  { personalDetails := [], driving := [], medicalQualifications := []
    submission := { agreedToTerms := true, submittedAt := some 1 }
    adminUse := some { status := "pending", approvedBy := "", notes := "",
                       reviewedAt := none } }

/-- A stored profile whose review status is "approved". -/
def profileApproved : Profile :=
  { personalDetails := [], driving := [], medicalQualifications := []
    submission := { agreedToTerms := true, submittedAt := some 1 }
    adminUse := some { status := "approved", approvedBy := "adm",
                       notes := "ok", reviewedAt := some 2 } }

/-- A stored profile whose review status is "rejected" with prior notes. -/
def profileRejected : Profile :=
  { personalDetails := [], driving := [], medicalQualifications := []
    submission := { agreedToTerms := true, submittedAt := some 1 }
    adminUse := some { status := "rejected", approvedBy := "adm",
                       notes := "missing DL number", reviewedAt := some 2 } }

/-- A stored profile whose review status is "rejected" with empty notes. -/
def profileNoNotes : Profile :=
  { personalDetails := [], driving := [], medicalQualifications := []
    submission := { agreedToTerms := true, submittedAt := some 1 }
    adminUse := some { status := "rejected", approvedBy := "adm",
                       notes := "", reviewedAt := some 2 } }

/-- A team named Alpha. -/
def teamAlpha : Team :=
  { name := "Alpha", description := "", createdAt := none, updatedAt := none }

/-- A team named Beta. -/
def teamBeta : Team :=
  { name := "Beta", description := "", createdAt := none, updatedAt := none }

/-- Ledger state: one team, two members. -/
def tsTwoMembers : TeamsState :=
  { teams := [("t1", teamAlpha)]
    users := [("u1", { teams := some ["t1"] }),
              ("u2", { teams := some ["t1"] })] }

/-- Ledger state: user u holds a dangling id "a" and the live id "b". -/
def tsDangling : TeamsState :=
  { teams := [("b", teamBeta)]
    users := [("u", { teams := some ["a", "b"] })] }

/-- Per-member failure oracle: the update for u1 is rejected. -/
def failsU1 : String → Bool := fun uid => uid = "u1"

/-- Per-member failure oracle: no update is rejected. -/
def failsNone : String → Bool := fun _ => false

/-- Statuses a profile document may carry (the enum of the spec). -/
def validStatus (s : String) : Prop :=
  s = "draft" ∨ s = "pending" ∨ s = "approved" ∨ s = "rejected"

/-- Every stored profile carries an `adminUse` block whose status is in
the enum. -/
def storeInvariant (st : PStore) : Prop :=
  ∀ uid p, alGet st uid = some p →
    ∃ a, p.adminUse = some a ∧ validStatus a.status

/-- The profile stores reachable from the empty store through the
operations of the lifecycle engine (review restricted to the two review
verdicts, as the spec states). -/
inductive Reachable : PStore → Prop where
  | init : Reachable []
  | create (uid : String) (d : ProfileInput) {st : PStore} :
      Reachable st → Reachable (createProfile (some uid) d st).2
  | updatePD (uid : String) (v : SectionData) {st : PStore} :
      Reachable st → Reachable (updatePersonalDetails (some uid) v st).2
  | updateDr (uid : String) (v : SectionData) {st : PStore} :
      Reachable st → Reachable (updateDriving (some uid) v st).2
  | updateMQ (uid : String) (v : SectionData) {st : PStore} :
      Reachable st → Reachable (updateMedicalQualifications (some uid) v st).2
  | submit (uid : String) (b : Bool) (now : Nat) {st : PStore} :
      Reachable st → Reachable (submitProfile (some uid) b now st).2
  | review (adminUid targetUid s notes : String) (now : Nat) {st : PStore} :
      Reachable st → (s = "approved" ∨ s = "rejected") →
      Reachable (reviewProfile (some adminUid) targetUid s notes now st).2
  | resubmit (uid : String) (d : ProfileInput) (now : Nat) (today : GDate)
      {st : PStore} :
      Reachable st →
      Reachable (updateAndResubmitProfile (some uid) d now today st).2

/-! ### Store lemmas -/

theorem alGet_alSet {α : Type} (st : List (String × α)) (k k' : String)
    (v : α) :
    alGet (alSet st k v) k' = if k = k' then some v else alGet st k' := by
  induction st with
  | nil => by_cases h : k = k' <;> simp [alGet, alSet, h]
  | cons kv rest ih =>
      obtain ⟨k0, v0⟩ := kv
      by_cases h0 : k0 = k
      · subst h0
        by_cases h1 : k0 = k' <;> simp [alGet, alSet, h1, ih]
      · by_cases h1 : k0 = k'
        · subst h1
          have hne : ¬ k = k0 := fun h => h0 h.symm
          simp [alGet, alSet, h0, hne]
        · simp [alGet, alSet, h0, h1, ih]

theorem alSet_alSet {α : Type} (st : List (String × α)) (k : String)
    (v w : α) : alSet (alSet st k v) k w = alSet st k w := by
  induction st with
  | nil => simp [alSet]
  | cons kv rest ih =>
      obtain ⟨k0, v0⟩ := kv
      by_cases h0 : k0 = k
      · subst h0; simp [alSet]
      · simp [alSet, h0, ih]

theorem alGet_alDelete_self {α : Type} (st : List (String × α))
    (k : String) : alGet (alDelete st k) k = none := by
  induction st with
  | nil => simp [alDelete, alGet]
  | cons kv rest ih =>
      obtain ⟨k0, v0⟩ := kv
      by_cases h0 : k0 = k
      · subst h0; simpa [alDelete, alGet] using ih
      · simpa [alDelete, alGet, h0] using ih

/-! ### Claim theorems -/

/-- C5: for every state of the profile store, a signed-in call of
`submitProfile` with `agreedToTerms = false` fails with the
terms-not-accepted error and issues no store write (the store is returned
unchanged); the check precedes every store access, so the result does not
depend on the store at all. -/
theorem submitProfile_false_rejected (uid : String) (now : Nat)
    (st : PStore) :
    submitProfile (some uid) false now st =
      (Except.error Err.termsNotAccepted, st) := rfl

/-- C10: with no actor signed in, `submitProfile` fails with the
not-authenticated error before the terms check and before any store
access, for either value of `agreedToTerms` and every store: the store is
returned unchanged and the error is not the terms-not-accepted one. -/
theorem submitProfile_unauthenticated (agreed : Bool) (now : Nat)
    (st : PStore) :
    submitProfile none agreed now st =
      (Except.error Err.notAuthenticated, st) ∧
    (submitProfile none agreed now st).1 ≠
      Except.error Err.termsNotAccepted := by
  refine ⟨rfl, ?_⟩
  intro h
  simp [submitProfile] at h

/-- C6: when no profile document exists for the signed-in user,
`updateAndResubmitProfile` fails with the profile-missing error (the
single `updateDoc` fails on the absent document) and neither creates nor
mutates any profile document. -/
theorem resubmit_missing_profile (uid : String) (upd : ProfileInput)
    (now : Nat) (today : GDate) (st : PStore)
    (h : alGet st uid = none) :
    updateAndResubmitProfile (some uid) upd now today st =
      (Except.error Err.profileMissing, st) := by
  simp [updateAndResubmitProfile, h]

/-- Witness for C6 at the empty store. -/
theorem resubmit_missing_profile_witness :
    updateAndResubmitProfile (some "u") inputEmpty 5 ⟨1, 1, 2025⟩ [] =
      (Except.error Err.profileMissing, []) :=
  resubmit_missing_profile "u" inputEmpty 5 ⟨1, 1, 2025⟩ [] rfl

/-- The section-update guard in terms of the stored status. -/
theorem forcesDraft_iff (p : Profile) :
    forcesDraft p = true ↔
      p.adminUse = none ∨
        ∃ a, p.adminUse = some a ∧ (a.status = "pending" ∨ a.status = "") := by
  cases h : p.adminUse with
  | none => simp [forcesDraft, h]
  | some a => simp [forcesDraft, h]

/-- C1: updating any of the three sections of an existing profile while
the stored status is "pending" or empty/unset writes the section and
force-sets the status to "draft"; updating while the stored status is
"approved", "rejected" or "draft" writes the section and leaves the
`adminUse` block untouched. -/
theorem sectionUpdate_status_policy (uid : String) (v : SectionData)
    (st : PStore) (p : Profile) (h : alGet st uid = some p) :
    ((p.adminUse = none ∨
        ∃ a, p.adminUse = some a ∧ (a.status = "pending" ∨ a.status = "")) →
      updatePersonalDetails (some uid) v st =
        (Except.ok (), alSet st uid
          { p with personalDetails := v,
                   adminUse := setStatus p.adminUse "draft" }) ∧
      updateDriving (some uid) v st =
        (Except.ok (), alSet st uid
          { p with driving := v,
                   adminUse := setStatus p.adminUse "draft" }) ∧
      updateMedicalQualifications (some uid) v st =
        (Except.ok (), alSet st uid
          { p with medicalQualifications := v,
                   adminUse := setStatus p.adminUse "draft" }) ∧
      statusAfter (updatePersonalDetails (some uid) v st).2 uid =
        some "draft") ∧
    (∀ a, p.adminUse = some a →
      (a.status = "approved" ∨ a.status = "rejected" ∨ a.status = "draft") →
      updatePersonalDetails (some uid) v st =
        (Except.ok (), alSet st uid { p with personalDetails := v }) ∧
      updateDriving (some uid) v st =
        (Except.ok (), alSet st uid { p with driving := v }) ∧
      updateMedicalQualifications (some uid) v st =
        (Except.ok (), alSet st uid { p with medicalQualifications := v }) ∧
      statusAfter (updatePersonalDetails (some uid) v st).2 uid =
        some a.status) := by
  constructor
  · intro hcond
    have hf : forcesDraft p = true := (forcesDraft_iff p).2 hcond
    refine ⟨?_, ?_, ?_, ?_⟩
    · simp [updatePersonalDetails, h, hf]
    · simp [updateDriving, h, hf]
    · simp [updateMedicalQualifications, h, hf]
    · cases ha : p.adminUse with
      | none =>
          simp [updatePersonalDetails, h, hf, statusAfter, alGet_alSet, ha,
                setStatus]
      | some a =>
          simp [updatePersonalDetails, h, hf, statusAfter, alGet_alSet, ha,
                setStatus]
  · intro a ha hs
    have h1 : ¬ a.status = "pending" := by
      rcases hs with hs | hs | hs <;> simp [hs]
    have h2 : ¬ a.status = "" := by
      rcases hs with hs | hs | hs <;> simp [hs]
    have hf : forcesDraft p = false := by
      simp [forcesDraft, ha, h1, h2]
    refine ⟨?_, ?_, ?_, ?_⟩
    · simp [updatePersonalDetails, h, hf]
    · simp [updateDriving, h, hf]
    · simp [updateMedicalQualifications, h, hf]
    · simp [updatePersonalDetails, h, hf, statusAfter, alGet_alSet, ha]

/-- Witness for C1: a pending profile is pulled back to draft by a
section edit, and an approved profile keeps its status. -/
theorem sectionUpdate_status_policy_witness :
    statusAfter
      (updatePersonalDetails (some "u") samplePD [("u", profilePending)]).2
      "u" = some "draft" ∧
    statusAfter
      (updatePersonalDetails (some "u") samplePD [("u", profileApproved)]).2
      "u" = some "approved" :=
  ⟨((sectionUpdate_status_policy "u" samplePD [("u", profilePending)]
      profilePending rfl).1
      (Or.inr ⟨_, rfl, Or.inl rfl⟩)).2.2.2,
   ((sectionUpdate_status_policy "u" samplePD [("u", profileApproved)]
      profileApproved rfl).2 _ rfl (Or.inl rfl)).2.2.2⟩


/-- One-step characterisation of `updateAndResubmitProfile` on an
existing profile document. -/
theorem resubmit_existing (uid : String) (upd : ProfileInput) (now : Nat)
    (today : GDate) (st : PStore) (p : Profile)
    (h : alGet st uid = some p) :
    updateAndResubmitProfile (some uid) upd now today st =
      (Except.ok (), alSet st uid
        { personalDetails := upd.personalDetails.getD []
          driving := upd.driving.getD []
          medicalQualifications := upd.medicalQualifications.getD []
          submission := { agreedToTerms := p.submission.agreedToTerms,
                          submittedAt := some now }
          adminUse := some
            { status := "pending"
              approvedBy := (p.adminUse.map AdminUse.approvedBy).getD ""
              notes := resubmitNotes p upd today
              reviewedAt := p.adminUse.bind AdminUse.reviewedAt } }) := by
  cases ha : p.adminUse with
  | none => simp [updateAndResubmitProfile, h, ha]
  | some a => simp [updateAndResubmitProfile, h, ha]

/-- C2, counterexample to the claim as stated: with no prior notes on the
stored profile, explicit caller-supplied notes "X" are ignored and the
generated update line is stored instead. -/
theorem resubmit_notes_counterexample :
    notesAfter
      (updateAndResubmitProfile (some "u") resubmitInputX 7 ⟨5, 3, 2025⟩
        [("u", profileNoNotes)]).2 "u" =
      some "Profile updated by user on 05 Mar 2025. Requires review." ∧
    notesAfter
      (updateAndResubmitProfile (some "u") resubmitInputX 7 ⟨5, 3, 2025⟩
        [("u", profileNoNotes)]).2 "u" ≠ some "X" := by
  constructor
  · rfl
  · decide

/-- C2 (amended): for an existing profile, the resubmission notes follow
this precedence: if prior notes exist (non-empty) and the caller supplies
explicit non-empty notes, the explicit notes are stored verbatim; if
prior notes exist and no explicit notes are supplied, the stored notes
are the prior notes followed by the generated update line; if no prior
notes exist (absent or empty), the generated update line alone is stored,
regardless of any caller-supplied notes. -/
theorem resubmit_notes_policy (uid : String) (upd : ProfileInput)
    (now : Nat) (today : GDate) (st : PStore) (p : Profile)
    (h : alGet st uid = some p) :
    ((p.adminUse.map AdminUse.notes).getD "" ≠ "" →
      ((upd.adminUse.map AdminUseInput.notes).getD "" ≠ "" →
        notesAfter (updateAndResubmitProfile (some uid) upd now today st).2
          uid = some ((upd.adminUse.map AdminUseInput.notes).getD "")) ∧
      ((upd.adminUse.map AdminUseInput.notes).getD "" = "" →
        notesAfter (updateAndResubmitProfile (some uid) upd now today st).2
          uid = some ((p.adminUse.map AdminUse.notes).getD "" ++ "\n\n" ++
            generatedNote today))) ∧
    ((p.adminUse.map AdminUse.notes).getD "" = "" →
      notesAfter (updateAndResubmitProfile (some uid) upd now today st).2
        uid = some (generatedNote today)) := by
  have hnotes : notesAfter
      (updateAndResubmitProfile (some uid) upd now today st).2 uid =
      some (resubmitNotes p upd today) := by
    rw [resubmit_existing uid upd now today st p h]
    simp [notesAfter, alGet_alSet]
  rw [hnotes]
  cases ha : p.adminUse with
  | none =>
      constructor
      · intro hn
        simp at hn
      · intro _
        simp [resubmitNotes, ha]
  | some a =>
      constructor
      · intro hn
        have hn' : ¬ a.notes = "" := by simpa using hn
        constructor
        · intro he
          cases hu : upd.adminUse with
          | none => simp [hu] at he
          | some ua =>
              have he' : ¬ ua.notes = "" := by
                rw [hu] at he
                simpa using he
              simp [resubmitNotes, ha, hu, hn', he']
        · intro he
          cases hu : upd.adminUse with
          | none => simp [resubmitNotes, ha, hu, hn']
          | some ua =>
              have he' : ua.notes = "" := by
                rw [hu] at he
                simpa using he
              simp [resubmitNotes, ha, hu, hn', he']
      · intro hn
        have hn' : a.notes = "" := by simpa using hn
        simp [resubmitNotes, ha, hn']

/-- Witness for C2 (amended): a rejected profile with prior notes,
resubmitted without explicit notes, gets the prior notes plus the
generated line. -/
theorem resubmit_notes_policy_witness :
    notesAfter
      (updateAndResubmitProfile (some "u") inputEmpty 7 ⟨5, 3, 2025⟩
        [("u", profileRejected)]).2 "u" =
      some ("missing DL number" ++ "\n\n" ++ generatedNote ⟨5, 3, 2025⟩) :=
  ((resubmit_notes_policy "u" inputEmpty 7 ⟨5, 3, 2025⟩
      [("u", profileRejected)] profileRejected rfl).1
      (by decide)).2 (by decide)

/-- C3: resubmitting an existing profile always succeeds, forces the
status to "pending", sets a non-null submitted-at timestamp, and
overwrites the three editable sections with the supplied values, any
omitted section becoming the empty object. -/
theorem resubmit_forces_pending (uid : String) (upd : ProfileInput)
    (now : Nat) (today : GDate) (st : PStore) (p : Profile)
    (h : alGet st uid = some p) :
    (updateAndResubmitProfile (some uid) upd now today st).1 =
      Except.ok () ∧
    ∃ p', alGet (updateAndResubmitProfile (some uid) upd now today st).2
        uid = some p' ∧
      (∃ a', p'.adminUse = some a' ∧ a'.status = "pending") ∧
      p'.submission.submittedAt = some now ∧
      p'.submission.submittedAt ≠ none ∧
      p'.personalDetails = upd.personalDetails.getD [] ∧
      p'.driving = upd.driving.getD [] ∧
      p'.medicalQualifications = upd.medicalQualifications.getD [] := by
  have hstep := resubmit_existing uid upd now today st p h
  refine ⟨by rw [hstep],
    ⟨{ personalDetails := upd.personalDetails.getD []
       driving := upd.driving.getD []
       medicalQualifications := upd.medicalQualifications.getD []
       submission := { agreedToTerms := p.submission.agreedToTerms,
                       submittedAt := some now }
       adminUse := some
         { status := "pending"
           approvedBy := (p.adminUse.map AdminUse.approvedBy).getD ""
           notes := resubmitNotes p upd today
           reviewedAt := p.adminUse.bind AdminUse.reviewedAt } },
     by rw [hstep]; simp [alGet_alSet],
     ⟨_, rfl, rfl⟩, rfl, by simp, rfl, rfl, rfl⟩⟩

/-- Witness for C3: resubmitting over an approved profile with only a
driving payload supplied. -/
theorem resubmit_forces_pending_witness :
    (updateAndResubmitProfile (some "u")
      { personalDetails := none, driving := some samplePD,
        medicalQualifications := none, adminUse := none } 9 ⟨5, 3, 2025⟩
      [("u", profileApproved)]).1 = Except.ok () ∧
    ∃ p', alGet (updateAndResubmitProfile (some "u")
        { personalDetails := none, driving := some samplePD,
          medicalQualifications := none, adminUse := none } 9 ⟨5, 3, 2025⟩
        [("u", profileApproved)]).2 "u" = some p' ∧
      (∃ a', p'.adminUse = some a' ∧ a'.status = "pending") ∧
      p'.submission.submittedAt = some 9 ∧
      p'.submission.submittedAt ≠ none ∧
      p'.personalDetails = ([] : SectionData) ∧
      p'.driving = samplePD ∧
      p'.medicalQualifications = ([] : SectionData) :=
  resubmit_forces_pending "u"
    { personalDetails := none, driving := some samplePD,
      medicalQualifications := none, adminUse := none } 9 ⟨5, 3, 2025⟩
    [("u", profileApproved)] profileApproved rfl

/-- "draft" is in the status enum. -/
theorem validStatus_draft : validStatus "draft" := Or.inl rfl

/-- "pending" is in the status enum. -/
theorem validStatus_pending : validStatus "pending" := Or.inr (Or.inl rfl)

/-- `setStatus` always yields a present block carrying the given status. -/
theorem setStatus_spec (x : Option AdminUse) (s : String) :
    ∃ a, setStatus x s = some a ∧ a.status = s := by
  cases x with
  | none => exact ⟨_, rfl, rfl⟩
  | some a => exact ⟨_, rfl, rfl⟩

/-- Writing a document with an in-enum status preserves the invariant. -/
theorem storeInvariant_alSet {st : PStore} (inv : storeInvariant st)
    (k : String) (p : Profile)
    (hp : ∃ a, p.adminUse = some a ∧ validStatus a.status) :
    storeInvariant (alSet st k p) := by
  intro uid q hq
  rw [alGet_alSet] at hq
  split at hq
  · injection hq with h
    subst h
    exact hp
  · exact inv uid q hq

/-- `createProfile` preserves the status invariant. -/
theorem createProfile_inv {st : PStore} (inv : storeInvariant st)
    (uid : String) (d : ProfileInput) :
    storeInvariant (createProfile (some uid) d st).2 := by
  simp only [createProfile]
  exact storeInvariant_alSet inv uid _ ⟨_, rfl, validStatus_draft⟩

/-- `updatePersonalDetails` preserves the status invariant. -/
theorem updatePersonalDetails_inv {st : PStore} (inv : storeInvariant st)
    (uid : String) (v : SectionData) :
    storeInvariant (updatePersonalDetails (some uid) v st).2 := by
  cases h : alGet st uid with
  | none =>
      simp only [updatePersonalDetails, h]
      exact createProfile_inv inv uid _
  | some p =>
      cases hf : forcesDraft p
      · simp [updatePersonalDetails, h, hf]
        exact storeInvariant_alSet inv uid _ (inv uid p h)
      · simp [updatePersonalDetails, h, hf]
        obtain ⟨a', ha', hs⟩ := setStatus_spec p.adminUse "draft"
        exact storeInvariant_alSet inv uid _
          ⟨a', ha', by rw [hs]; exact validStatus_draft⟩

/-- `updateDriving` preserves the status invariant. -/
theorem updateDriving_inv {st : PStore} (inv : storeInvariant st)
    (uid : String) (v : SectionData) :
    storeInvariant (updateDriving (some uid) v st).2 := by
  cases h : alGet st uid with
  | none =>
      simp only [updateDriving, h]
      exact createProfile_inv inv uid _
  | some p =>
      cases hf : forcesDraft p
      · simp [updateDriving, h, hf]
        exact storeInvariant_alSet inv uid _ (inv uid p h)
      · simp [updateDriving, h, hf]
        obtain ⟨a', ha', hs⟩ := setStatus_spec p.adminUse "draft"
        exact storeInvariant_alSet inv uid _
          ⟨a', ha', by rw [hs]; exact validStatus_draft⟩

/-- `updateMedicalQualifications` preserves the status invariant. -/
theorem updateMedicalQualifications_inv {st : PStore}
    (inv : storeInvariant st) (uid : String) (v : SectionData) :
    storeInvariant (updateMedicalQualifications (some uid) v st).2 := by
  cases h : alGet st uid with
  | none =>
      simp only [updateMedicalQualifications, h]
      exact createProfile_inv inv uid _
  | some p =>
      cases hf : forcesDraft p
      · simp [updateMedicalQualifications, h, hf]
        exact storeInvariant_alSet inv uid _ (inv uid p h)
      · simp [updateMedicalQualifications, h, hf]
        obtain ⟨a', ha', hs⟩ := setStatus_spec p.adminUse "draft"
        exact storeInvariant_alSet inv uid _
          ⟨a', ha', by rw [hs]; exact validStatus_draft⟩

/-- `submitProfile` preserves the status invariant. -/
theorem submitProfile_inv {st : PStore} (inv : storeInvariant st)
    (uid : String) (b : Bool) (now : Nat) :
    storeInvariant (submitProfile (some uid) b now st).2 := by
  cases b
  · simpa [submitProfile] using inv
  · cases h : alGet st uid with
    | none => simpa [submitProfile, h] using inv
    | some p =>
        simp [submitProfile, h]
        obtain ⟨a', ha', hs⟩ := setStatus_spec p.adminUse "pending"
        exact storeInvariant_alSet inv uid _
          ⟨a', ha', by rw [hs]; exact validStatus_pending⟩

/-- `reviewProfile` with a review verdict preserves the status
invariant. -/
theorem reviewProfile_inv {st : PStore} (inv : storeInvariant st)
    (adminUid targetUid s notes : String) (now : Nat)
    (hs : s = "approved" ∨ s = "rejected") :
    storeInvariant (reviewProfile (some adminUid) targetUid s notes now
      st).2 := by
  cases h : alGet st targetUid with
  | none => simpa [reviewProfile, h] using inv
  | some p =>
      simp [reviewProfile, h]
      refine storeInvariant_alSet inv targetUid _ ⟨_, rfl, ?_⟩
      show validStatus s
      rcases hs with hs | hs
      · rw [hs]; exact Or.inr (Or.inr (Or.inl rfl))
      · rw [hs]; exact Or.inr (Or.inr (Or.inr rfl))

/-- `updateAndResubmitProfile` preserves the status invariant. -/
theorem resubmit_inv {st : PStore} (inv : storeInvariant st)
    (uid : String) (d : ProfileInput) (now : Nat) (today : GDate) :
    storeInvariant (updateAndResubmitProfile (some uid) d now today
      st).2 := by
  cases h : alGet st uid with
  | none => simpa [updateAndResubmitProfile, h] using inv
  | some p =>
      rw [resubmit_existing uid d now today st p h]
      exact storeInvariant_alSet inv uid _ ⟨_, rfl, validStatus_pending⟩

/-- C4: on every reachable profile store, each stored profile carries a
status in the enum draft, pending, approved, rejected: creation writes
"draft", section updates write only "draft", submit and resubmit write
only "pending", and review writes only the verdict it is given (which
the spec restricts to "approved" or "rejected"). -/
theorem profile_status_enum (st : PStore) (h : Reachable st) :
    storeInvariant st := by
  induction h with
  | init => intro uid p hp; simp [alGet] at hp
  | create uid d _ ih => exact createProfile_inv ih uid d
  | updatePD uid v _ ih => exact updatePersonalDetails_inv ih uid v
  | updateDr uid v _ ih => exact updateDriving_inv ih uid v
  | updateMQ uid v _ ih => exact updateMedicalQualifications_inv ih uid v
  | submit uid b now _ ih => exact submitProfile_inv ih uid b now
  | review adminUid targetUid s notes now _ hs ih =>
      exact reviewProfile_inv ih adminUid targetUid s notes now hs
  | resubmit uid d now today _ ih => exact resubmit_inv ih uid d now today

/-- Witness for C4 on a concrete reachable store: create then submit. -/
theorem profile_status_enum_witness :
    storeInvariant (submitProfile (some "u") true 3
      (createProfile (some "u") inputEmpty []).2).2 :=
  profile_status_enum _
    (Reachable.submit "u" true 3
      (Reachable.create "u" inputEmpty Reachable.init))

/-! ### Team-ledger lemmas -/

theorem mem_arrayUnion (xs : List String) (y x : String) :
    x ∈ arrayUnion xs y ↔ x ∈ xs ∨ x = y := by
  unfold arrayUnion
  split
  · rename_i h
    constructor
    · exact fun hx => Or.inl hx
    · rintro (hx | rfl)
      · exact hx
      · exact h
  · simp [List.mem_append]

theorem mem_arrayRemove (xs : List String) (y x : String) :
    x ∈ arrayRemove xs y ↔ x ∈ xs ∧ x ≠ y := by
  simp [arrayRemove, List.mem_filter]

theorem arrayUnion_idem (xs : List String) (y : String) :
    arrayUnion (arrayUnion xs y) y = arrayUnion xs y := by
  by_cases hy : y ∈ xs <;> simp [arrayUnion, hy]

theorem arrayRemove_of_not_mem (xs : List String) (y : String)
    (h : y ∉ xs) : arrayRemove xs y = xs := by
  rw [arrayRemove, List.filter_eq_self]
  intro a ha
  simp only [ne_eq, decide_not, Bool.not_eq_true', decide_eq_false_iff_not]
  rintro rfl
  exact h ha

theorem alGet_removeTeamFromUsers (users : List (String × UserRec))
    (teamId : String) (failsOn : String → Bool) (w : String) :
    alGet (removeTeamFromUsers users teamId failsOn) w =
      (alGet users w).map (cleanUser teamId failsOn w) := by
  induction users with
  | nil => simp [removeTeamFromUsers, alGet]
  | cons kv rest ih =>
      obtain ⟨k0, u0⟩ := kv
      by_cases h0 : k0 = w
      · subst h0
        simp [removeTeamFromUsers, alGet]
      · simpa [removeTeamFromUsers, alGet, h0] using ih

theorem deleteTeam_state (teamId : String) (failsOn : String → Bool)
    (s : TeamsState) :
    (deleteTeam teamId failsOn s).2 =
      { teams := alDelete s.teams teamId
        users := removeTeamFromUsers s.users teamId failsOn } := by
  cases hfl : (memberIds s.users teamId).filter (fun uid => failsOn uid) with
  | nil => simp [deleteTeam, hfl]
  | cons w rest => simp [deleteTeam, hfl]

/-! ### Team claim theorems -/

/-- C9: on an existing user record, `addUserToTeam` is set-union and
`removeUserFromTeam` is set-difference on the membership set; adding
twice equals adding once, and removing a non-member succeeds and leaves
every membership set unchanged. -/
theorem membership_set_algebra (userId teamId : String) (s : TeamsState)
    (u : UserRec) (hu : alGet s.users userId = some u) :
    (∃ u', alGet (addUserToTeam userId teamId s).2.users userId =
       some u' ∧
       ∀ x, x ∈ u'.teams.getD [] ↔ x ∈ u.teams.getD [] ∨ x = teamId) ∧
    (∃ u', alGet (removeUserFromTeam userId teamId s).2.users userId =
       some u' ∧
       ∀ x, x ∈ u'.teams.getD [] ↔ x ∈ u.teams.getD [] ∧ x ≠ teamId) ∧
    (addUserToTeam userId teamId (addUserToTeam userId teamId s).2).2 =
      (addUserToTeam userId teamId s).2 ∧
    (teamId ∉ u.teams.getD [] →
      (removeUserFromTeam userId teamId s).1 = Except.ok () ∧
      ∀ w, (alGet (removeUserFromTeam userId teamId s).2.users w).map
          (fun x => x.teams.getD []) =
        (alGet s.users w).map (fun x => x.teams.getD [])) := by
  refine ⟨?_, ?_, ?_, ?_⟩
  · refine ⟨{ teams := some (arrayUnion (u.teams.getD []) teamId) },
      ?_, ?_⟩
    · simp [addUserToTeam, hu, alGet_alSet]
    · intro x
      simpa using mem_arrayUnion (u.teams.getD []) teamId x
  · refine ⟨{ teams := some (arrayRemove (u.teams.getD []) teamId) },
      ?_, ?_⟩
    · simp [removeUserFromTeam, hu, alGet_alSet]
    · intro x
      simpa using mem_arrayRemove (u.teams.getD []) teamId x
  · simp [addUserToTeam, hu, alGet_alSet, arrayUnion_idem, alSet_alSet]
  · intro hnm
    refine ⟨by simp [removeUserFromTeam, hu], ?_⟩
    have hrem : (removeUserFromTeam userId teamId s).2.users =
        alSet s.users userId
          { teams := some (arrayRemove (u.teams.getD []) teamId) } := by
      simp [removeUserFromTeam, hu]
    intro w
    rw [hrem, alGet_alSet]
    by_cases hw : userId = w
    · subst hw
      simp [hu, arrayRemove_of_not_mem _ _ hnm]
    · simp [hw]

/-- Witness for C9 on a concrete two-user ledger: double add collapses,
and removing a team the user is not in succeeds. -/
theorem membership_set_algebra_witness :
    (addUserToTeam "u2" "t2" (addUserToTeam "u2" "t2" tsTwoMembers).2).2 =
      (addUserToTeam "u2" "t2" tsTwoMembers).2 ∧
    (removeUserFromTeam "u2" "t2" tsTwoMembers).1 = Except.ok () :=
  ⟨(membership_set_algebra "u2" "t2" tsTwoMembers
      { teams := some ["t1"] } (by decide)).2.2.1,
   ((membership_set_algebra "u2" "t2" tsTwoMembers
      { teams := some ["t1"] } (by decide)).2.2.2 (by decide)).1⟩

/-- C7, counterexample to the claim as stated: when one member update
fails, the caller receives the first error (the rejected promise), not a
success carrying an aggregate outcome. -/
theorem deleteTeam_first_error_counterexample :
    (deleteTeam "t1" failsU1 tsTwoMembers).1 =
      Except.error (Err.storeError "u1") ∧
    (deleteTeam "t1" failsU1 tsTwoMembers).1 ≠ Except.ok () := by
  have h : (deleteTeam "t1" failsU1 tsTwoMembers).1 =
      Except.error (Err.storeError "u1") := rfl
  refine ⟨h, ?_⟩
  rw [h]
  intro hc
  cases hc

/-- C7 (amended): `deleteTeam` deletes the team record and removes the id
from the membership set of every member whose update the store accepts,
even when a sibling update fails (failing members keep their record);
when every update succeeds the call succeeds, and when at least one fails
the caller receives the first store error, not an aggregate outcome. -/
theorem deleteTeam_cascade (teamId : String) (failsOn : String → Bool)
    (s : TeamsState) :
    alGet (deleteTeam teamId failsOn s).2.teams teamId = none ∧
    (∀ uid u, alGet s.users uid = some u → teamId ∈ u.teams.getD [] →
      failsOn uid = false →
      ∃ u', alGet (deleteTeam teamId failsOn s).2.users uid = some u' ∧
        teamId ∉ u'.teams.getD []) ∧
    (∀ uid u, alGet s.users uid = some u → failsOn uid = true →
      alGet (deleteTeam teamId failsOn s).2.users uid = some u) ∧
    ((memberIds s.users teamId).filter (fun uid => failsOn uid) = [] →
      (deleteTeam teamId failsOn s).1 = Except.ok ()) ∧
    (∀ w rest,
      (memberIds s.users teamId).filter (fun uid => failsOn uid) =
        w :: rest →
      (deleteTeam teamId failsOn s).1 =
        Except.error (Err.storeError w)) := by
  refine ⟨?_, ?_, ?_, ?_, ?_⟩
  · rw [deleteTeam_state]
    exact alGet_alDelete_self s.teams teamId
  · intro uid u hu hm hf
    refine ⟨{ teams := some (arrayRemove (u.teams.getD []) teamId) },
      ?_, ?_⟩
    · rw [deleteTeam_state]
      show alGet (removeTeamFromUsers s.users teamId failsOn) uid = _
      rw [alGet_removeTeamFromUsers, hu]
      simp [cleanUser, hm, hf]
    · simp [mem_arrayRemove]
  · intro uid u hu hf
    rw [deleteTeam_state]
    show alGet (removeTeamFromUsers s.users teamId failsOn) uid = some u
    rw [alGet_removeTeamFromUsers, hu]
    simp [cleanUser, hf]
  · intro hfl
    simp [deleteTeam, hfl]
  · intro w rest hfl
    simp [deleteTeam, hfl]

/-- Witness for C7 (amended) on a team with two members, the update for
u1 failing: the team record is gone, u2 is cleaned, u1 is untouched. -/
theorem deleteTeam_cascade_witness :
    alGet (deleteTeam "t1" failsU1 tsTwoMembers).2.teams "t1" = none ∧
    (∃ u', alGet (deleteTeam "t1" failsU1 tsTwoMembers).2.users "u2" =
      some u' ∧ "t1" ∉ u'.teams.getD []) ∧
    alGet (deleteTeam "t1" failsU1 tsTwoMembers).2.users "u1" =
      some { teams := some ["t1"] } :=
  ⟨(deleteTeam_cascade "t1" failsU1 tsTwoMembers).1,
   (deleteTeam_cascade "t1" failsU1 tsTwoMembers).2.1 "u2"
     { teams := some ["t1"] } (by decide) (by decide) (by decide),
   (deleteTeam_cascade "t1" failsU1 tsTwoMembers).2.2.1 "u1"
     { teams := some ["t1"] } (by decide) (by decide)⟩

/-! ### Sorting lemmas for `getUserTeams` -/

theorem mem_insertByName (x y : String × Team)
    (l : List (String × Team)) :
    y ∈ insertByName x l ↔ y = x ∨ y ∈ l := by
  induction l with
  | nil => simp [insertByName]
  | cons z zs ih =>
      by_cases h : x.2.name ≤ z.2.name
      · simp only [insertByName, if_pos h, List.mem_cons]
      · simp only [insertByName, if_neg h, List.mem_cons, ih]
        tauto

theorem pairwise_insertByName (x : String × Team)
    (l : List (String × Team))
    (h : l.Pairwise (fun a b => a.2.name ≤ b.2.name)) :
    (insertByName x l).Pairwise (fun a b => a.2.name ≤ b.2.name) := by
  induction l with
  | nil => simp [insertByName]
  | cons z zs ih =>
      rcases List.pairwise_cons.1 h with ⟨hz, hzs⟩
      by_cases hle : x.2.name ≤ z.2.name
      · rw [insertByName, if_pos hle]
        refine List.pairwise_cons.2 ⟨?_, h⟩
        intro b hb
        rcases List.mem_cons.1 hb with rfl | hb
        · exact hle
        · exact le_trans hle (hz b hb)
      · rw [insertByName, if_neg hle]
        refine List.pairwise_cons.2 ⟨?_, ih hzs⟩
        intro b hb
        rcases (mem_insertByName x b zs).1 hb with rfl | hb
        · exact le_of_not_le hle
        · exact hz b hb

theorem mem_sortByName (y : String × Team) (l : List (String × Team)) :
    y ∈ sortByName l ↔ y ∈ l := by
  induction l with
  | nil => simp [sortByName]
  | cons z zs ih =>
      simp only [sortByName, mem_insertByName, ih, List.mem_cons]

theorem pairwise_sortByName (l : List (String × Team)) :
    (sortByName l).Pairwise (fun a b => a.2.name ≤ b.2.name) := by
  induction l with
  | nil => simp [sortByName]
  | cons z zs ih => exact pairwise_insertByName z _ ih

theorem mem_resolve (ids : List String) (s : TeamsState) (tid : String)
    (t : Team) :
    (tid, t) ∈ ids.filterMap (fun i => getTeamById i s) ↔
      tid ∈ ids ∧ alGet s.teams tid = some t := by
  simp only [List.mem_filterMap, getTeamById, Option.map_eq_some']
  constructor
  · rintro ⟨i, hi, x, hx, hpair⟩
    injection hpair with h1 h2
    subst h1
    subst h2
    exact ⟨hi, hx⟩
  · rintro ⟨hi, ht⟩
    exact ⟨tid, hi, t, ht, rfl⟩

/-- C8: on an existing user record, `getUserTeams` resolves the
membership ids to full team records sorted by team name ascending,
silently skipping every id whose team document is missing; and when the
user record has no teams field at all, it writes an empty teams array
onto the user record and returns the empty list. -/
theorem getUserTeams_spec (userId : String) (s : TeamsState)
    (u : UserRec) (hu : alGet s.users userId = some u) :
    (u.teams = none →
      (getUserTeams userId s).1 = [] ∧
      (getUserTeams userId s).2.users =
        alSet s.users userId { teams := some [] } ∧
      (getUserTeams userId s).2.teams = s.teams) ∧
    (∀ ids, u.teams = some ids →
      (getUserTeams userId s).2 = s ∧
      ((getUserTeams userId s).1).Pairwise
        (fun a b => a.2.name ≤ b.2.name) ∧
      ∀ tid t, ((tid, t) ∈ (getUserTeams userId s).1 ↔
        tid ∈ ids ∧ alGet s.teams tid = some t)) := by
  constructor
  · intro hn
    refine ⟨?_, ?_, ?_⟩ <;> simp [getUserTeams, hu, hn]
  · intro ids hids
    cases ids with
    | nil =>
        refine ⟨?_, ?_, ?_⟩
        · simp [getUserTeams, hu, hids]
        · simp [getUserTeams, hu, hids]
        · intro tid t
          simp [getUserTeams, hu, hids]
    | cons i0 irest =>
        have hres : (getUserTeams userId s).1 =
            sortByName ((i0 :: irest).filterMap
              (fun tid => getTeamById tid s)) := by
          simp [getUserTeams, hu, hids]
        refine ⟨by simp [getUserTeams, hu, hids], ?_, ?_⟩
        · rw [hres]
          exact pairwise_sortByName _
        · intro tid t
          rw [hres, mem_sortByName, mem_resolve]

/-- Witness for C8 on a user holding a dangling id "a" and the live id
"b": the live team resolves, the dangling id is skipped, the result is
sorted and the state is untouched. -/
theorem getUserTeams_spec_witness :
    (getUserTeams "u" tsDangling).2 = tsDangling ∧
    ((getUserTeams "u" tsDangling).1).Pairwise
      (fun a b => a.2.name ≤ b.2.name) ∧
    (("b", teamBeta) ∈ (getUserTeams "u" tsDangling).1 ↔
      "b" ∈ ["a", "b"] ∧ alGet tsDangling.teams "b" = some teamBeta) ∧
    (("a", teamAlpha) ∈ (getUserTeams "u" tsDangling).1 ↔
      "a" ∈ ["a", "b"] ∧ alGet tsDangling.teams "a" = some teamAlpha) :=
  ⟨((getUserTeams_spec "u" tsDangling { teams := some ["a", "b"] }
      (by decide)).2 ["a", "b"] rfl).1,
   ((getUserTeams_spec "u" tsDangling { teams := some ["a", "b"] }
      (by decide)).2 ["a", "b"] rfl).2.1,
   ((getUserTeams_spec "u" tsDangling { teams := some ["a", "b"] }
      (by decide)).2 ["a", "b"] rfl).2.2 "b" teamBeta,
   ((getUserTeams_spec "u" tsDangling { teams := some ["a", "b"] }
      (by decide)).2 ["a", "b"] rfl).2.2 "a" teamAlpha⟩

end Portal
